import Mathlib

/-!
Verification of the subgonverter subtitle conversion core
(`subtitle/subtitle.go` and its callers), as a shallow embedding.

Go `string` values are modelled as `List Char`, Go `int64` / `time.Duration`
as `Int` with explicit two's-complement wraparound (`wrap64`) wherever the
source performs 64-bit arithmetic that can overflow, and fallible Go code as
`Option` / `Except` (`none` models a runtime panic).
-/

deriving instance DecidableEq for Except

namespace Subgonverter

/-- Constant 2^64, the size of the Go int64 value space. -/
def i64size : Int := 18446744073709551616

/-- Constant 2^63; Go int64 values lie in [-i64half, i64half). -/
def i64half : Int := 9223372036854775808

/-- Two's-complement wraparound of 64-bit signed arithmetic: Go defines
signed overflow as wraparound, so every int64 `+`/`*` result is reduced
into [-2^63, 2^63). -/
def wrap64 (x : Int) : Int := (x + i64half) % i64size - i64half

/-- Source constant `ntscRateNum = 24000` from subtitle.go. -/
def ntscRateNum : Int := 24000

/-- Source constant `ntscRateDen = 1001` from subtitle.go. -/
def ntscRateDen : Int := 1001

/-- Source constant `ntscRateDiv = 1000` from subtitle.go. -/
def ntscRateDiv : Int := 1000

/-- Model of `strings.Index(line, pat)` for the single-character patterns "{" and "}"
used by the source: index of the first occurrence, -1 if absent. -/
def goIndexChar (s : List Char) (c : Char) : Int :=
  match s with
  | [] => -1
  | x :: xs =>
    if x = c then 0
    else
      let r := goIndexChar xs c
      if r = -1 then -1 else r + 1

/-- Go slice expression `s[lo:hi]`; `none` models the runtime panic raised
when the bounds are invalid (`0 ≤ lo ≤ hi ≤ len(s)` is required). -/
def goSlice (s : List Char) (lo hi : Int) : Option (List Char) :=
  if 0 ≤ lo ∧ lo ≤ hi ∧ hi ≤ (s.length : Int) then
    some ((s.take hi.toNat).drop lo.toNat)
  else none

/-- Go slice expression `s[lo:]`. -/
def goSliceFrom (s : List Char) (lo : Int) : Option (List Char) :=
  goSlice s lo (s.length : Int)

/-- Digits of an unsigned decimal number, most significant first;
helper for `strconv.ParseInt`. `none` when the text is empty or contains
a non-digit. -/
def parseDigitsAux : List Char → Nat → Option Nat
  | [], acc => some acc
  | c :: cs, acc =>
    if c.isDigit then parseDigitsAux cs (acc * 10 + (c.toNat - 48)) else none

/-- Unsigned part of `strconv.ParseInt`: nonempty digit string whose value
does not exceed `bound` (the int64 range check). -/
def parsePos (s : List Char) (bound : Int) : Option Int :=
  match s with
  | [] => none
  | _ =>
    match parseDigitsAux s 0 with
    | none => none
    | some n => if (n : Int) ≤ bound then some (n : Int) else none

/-- Model of `strconv.ParseInt(s, 10, 64)`: optional sign, then base-10 digits,
value must fit in int64; every failure (empty, stray characters, range)
makes the caller take its error branch, so all failures collapse to `none`. -/
def goParseInt64 (s : List Char) : Option Int :=
  match s with
  | [] => none
  | c :: rest =>
    if c = '+' then parsePos rest (i64half - 1)
    else if c = '-' then (parsePos rest i64half).map (fun n => -n)
    else parsePos s (i64half - 1)

/-- The `Subtitle` struct: `Start`/`End` are `time.Duration` values
(int64 nanoseconds), `Text` a Go string. -/
structure Subtitle where
  Start : Int
  End : Int
  Text : List Char
deriving DecidableEq, Repr

/-- The Go zero value `Subtitle{}` yielded alongside iterator errors. -/
def zeroSubtitle : Subtitle := ⟨0, 0, []⟩

/-- The frame→duration arithmetic of `newSubtitleFromTxt`:
`time.Duration(frame*mul/div) * time.Millisecond` with
`mul = ntscRateDen*ntscRateDiv`, `div = ntscRateNum`; both the inner
product and the final millisecond scaling are int64 operations and wrap. -/
def frameToDuration (frame : Int) : Int :=
  let mul := ntscRateDen * ntscRateDiv
  let div := ntscRateNum
  wrap64 (Int.tdiv (wrap64 (frame * mul)) div * 1000000)

/-- Model of `strings.ReplaceAll(s, "|", "\n")` for one-character operands. -/
def replacePipes (s : List Char) : List Char :=
  s.map fun c => if c = '|' then '\n' else c

/-- The two error branches of `newSubtitleFromTxt`:
"failed to parse start frame: %w" and "failed to parse end frame: %w". -/
inductive TxtParseError where
  | startFrame
  | endFrame
deriving DecidableEq, Repr

/-- Function `newSubtitleFromTxt` from subtitle.go, step for step: locate the brace
positions with `strings.Index`, slice the two numeric fields and the text
payload (each slice may panic, modelled by the outer `Option`), parse the
fields with `strconv.ParseInt`, replace `|` by newlines, and convert frames
to durations at the NTSC rate. -/
def newSubtitleFromTxt (line : List Char) : Option (Except TxtParseError Subtitle) :=
  let startFrom := goIndexChar line '{' + 1
  let startTill := goIndexChar line '}'
  match goSliceFrom line startTill with
  | none => none
  | some s1 =>
    let endFrom := goIndexChar s1 '{' + startTill + 1
    match goSliceFrom line (endFrom - 1) with
    | none => none
    | some s2 =>
      let endTill := goIndexChar s2 '}' + endFrom - 1
      match goSlice line startFrom startTill with
      | none => none
      | some startStr =>
        match goParseInt64 startStr with
        | none => some (Except.error TxtParseError.startFrame)
        | some startFrame =>
          match goSlice line endFrom endTill with
          | none => none
          | some endStr =>
            match goParseInt64 endStr with
            | none => some (Except.error TxtParseError.endFrame)
            | some endFrame =>
              match goSliceFrom line (endTill + 1) with
              | none => none
              | some tail =>
                some (Except.ok
                  { Start := frameToDuration startFrame
                    End := frameToDuration endFrame
                    Text := replacePipes tail })

/-- Decomposition of a record's `Text` into display lines: the lines
separated by `'\n'` (the Go `strings.Split` convention, where the empty
string splits into one empty piece). -/
def splitOnChar (sep : Char) : List Char → List (List Char)
  | [] => [[]]
  | c :: cs =>
    if c = sep then [] :: splitOnChar sep cs
    else
      match splitOnChar sep cs with
      | [] => [[c]]
      | l :: ls => (c :: l) :: ls

/-- The display lines of a stored subtitle text. -/
def displayLines (text : List Char) : List (List Char) :=
  splitOnChar '\n' text

/-- Occurrences of a character in a string. -/
def countChar (c : Char) : List Char → Nat
  | [] => 0
  | x :: xs => (if x = c then 1 else 0) + countChar c xs

/-- An `io.Writer`: accumulated output plus a success schedule for the
upcoming `Write` calls (`plan` exhausted means every further call
succeeds; a `false` entry makes one call fail and write nothing, like the
`errorWriter` of the repository's tests). -/
structure GoWriter where
  out : List Char
  plan : List Bool
deriving DecidableEq, Repr

/-- One `Write` call on the modelled writer. Each `fmt.Fprint*` call in the
source formats into a buffer and performs exactly one `Write`. -/
def goWrite (w : GoWriter) (s : List Char) : GoWriter × Bool :=
  match w.plan with
  | [] => ({ w with out := w.out ++ s }, true)
  | b :: rest =>
    if b then ({ out := w.out ++ s, plan := rest }, true)
    else ({ w with plan := rest }, false)

/-- A writer on which every write succeeds (like `bytes.Buffer`). -/
def reliableWriter : GoWriter := ⟨[], []⟩

/-- Decimal digit character. -/
def digitChar (n : Nat) : Char := Char.ofNat (48 + n)

/-- Decimal digits of a natural number (fueled recursion on `n / 10`). -/
def natToCharsAux : Nat → Nat → List Char → List Char
  | 0, _, acc => acc
  | fuel + 1, n, acc =>
    if n < 10 then digitChar n :: acc
    else natToCharsAux fuel (n / 10) (digitChar (n % 10) :: acc)

/-- Decimal rendering of a natural number, as `fmt` prints it. -/
def natToChars (n : Nat) : List Char := natToCharsAux (n + 1) n []

/-- Rendering of an integer as `fmt` `%d` prints it. -/
def intToChars (i : Int) : List Char :=
  if i < 0 then '-' :: natToChars i.natAbs else natToChars i.toNat

/-- Zero padding to a minimum width. -/
def padZeros (w : Nat) (s : List Char) : List Char :=
  List.replicate (w - s.length) '0' ++ s

/-- Rendering as `fmt` `%0Nd` prints it: zero-padded to width `w`, sign first. -/
def fmtIntPad (w : Nat) (i : Int) : List Char :=
  if i < 0 then '-' :: padZeros (w - 1) (natToChars i.natAbs)
  else padZeros w (natToChars i.toNat)

/-- Constant `time.Hour` in nanoseconds. -/
def nsPerHour : Int := 3600000000000

/-- Constant `time.Minute` in nanoseconds. -/
def nsPerMinute : Int := 60000000000

/-- Constant `time.Second` in nanoseconds. -/
def nsPerSecond : Int := 1000000000

/-- Constant `time.Millisecond` in nanoseconds. -/
def nsPerMillisecond : Int := 1000000

/-- The text produced by `writeSrtDuration`: `"%02d:%02d:%02d,%03d"` of the
hour/minute/second/millisecond fields; Go `/` and `%` on int64 are
truncated division and remainder. -/
def srtDurationChars (d : Int) : List Char :=
  fmtIntPad 2 (Int.tdiv d nsPerHour) ++ ':' ::
    (fmtIntPad 2 (Int.tdiv (Int.tmod d nsPerHour) nsPerMinute) ++ ':' ::
      (fmtIntPad 2 (Int.tdiv (Int.tmod d nsPerMinute) nsPerSecond) ++ ',' ::
        fmtIntPad 3 (Int.tdiv (Int.tmod d nsPerSecond) nsPerMillisecond)))

/-- Function `writeSrtSubtitle` from subtitle.go, one `Write` per `fmt` call, in
source order: the sequence number line, the start duration, the literal
`" --> "`, the start duration a second time (the source passes `sub.Start`
to both duration writes), and finally `fmt.Fprintln(w, "\n", sub.Text)`,
which emits a newline, a separating space, the text, and a newline. -/
def writeSrtSubtitle (w : GoWriter) (sub : Subtitle) (n : Int) : GoWriter × Bool :=
  let r1 := goWrite w (intToChars n ++ ['\n'])
  if !r1.2 then (r1.1, false) else
  let r2 := goWrite r1.1 (srtDurationChars sub.Start)
  if !r2.2 then (r2.1, false) else
  let r3 := goWrite r2.1 (' ' :: '-' :: '-' :: '>' :: [' '])
  if !r3.2 then (r3.1, false) else
  let r4 := goWrite r3.1 (srtDurationChars sub.Start)
  if !r4.2 then (r4.1, false) else
  goWrite r4.1 ('\n' :: ' ' :: (sub.Text ++ ['\n']))

/-- Model of `d.Milliseconds()`: `int64(d) / 1e6`, truncated. -/
def durationMilliseconds (d : Int) : Int := Int.tdiv d 1000000

/-- The frame number computed by `writeTxtDuration`:
`(d.Milliseconds()*ntscRateNum + div/2) / div` with
`div = ntscRateDen*ntscRateDiv`; the int64 product and sum wrap. -/
def writeTxtFrameOf (d : Int) : Int :=
  let div := ntscRateDen * ntscRateDiv
  Int.tdiv (wrap64 (wrap64 (durationMilliseconds d * ntscRateNum) + Int.tdiv div 2)) div

/-- Function `writeTxtDuration`: one `fmt.Fprintf(w, "{%d}", frame)` call. -/
def writeTxtDuration (w : GoWriter) (d : Int) : GoWriter × Bool :=
  goWrite w ('{' :: (intToChars (writeTxtFrameOf d) ++ ['}']))

/-- The `FileFormat` enumeration. -/
inductive FileFormat where
  | UnknownFormat
  | TxtFormat
  | SrtFormat
deriving DecidableEq, Repr

/-- The state captured by the printer closure returned for `SrtFormat`:
the sequence counter `n` (initialised to 0) and the destination writer. -/
structure SrtPrinter where
  n : Int
  w : GoWriter
deriving DecidableEq, Repr

/-- One call of the `SrtFormat` printer closure: `n++` happens before the
write attempt, then `writeSrtSubtitle(writer, sub, n)`; the incremented
counter is kept whether or not the write succeeded. -/
def srtPrinterStep (st : SrtPrinter) (sub : Subtitle) : SrtPrinter × Bool :=
  let n := st.n + 1
  let r := writeSrtSubtitle st.w sub n
  (⟨n, r.1⟩, r.2)

/-- Function `NewSubtitlePrinter`: a printing closure only for `SrtFormat`; the
`TxtFormat` and default cases both `return nil`. -/
def NewSubtitlePrinter (format : FileFormat) :
    Option (SrtPrinter → Subtitle → SrtPrinter × Bool) :=
  match format with
  | .SrtFormat => some srtPrinterStep
  | .TxtFormat => none
  | .UnknownFormat => none

/-- The text a successful `writeSrtSubtitle` call appends for one record. -/
def srtBlockChars (n : Int) (sub : Subtitle) : List Char :=
  intToChars n ++ '\n' ::
    (srtDurationChars sub.Start ++ ' ' :: '-' :: '-' :: '>' :: ' ' ::
      (srtDurationChars sub.Start ++ '\n' :: ' ' :: (sub.Text ++ ['\n'])))

/-- The error values an iterator can yield: the sentinel
`ErrNotImplemented = errors.New("not implemented")` and the two wrappers
of `newTxtSubtitlesIter` ("error reading txt subtitle: %w",
"error parsing txt subtitle: %w"). -/
inductive IterError where
  | notImplemented
  | readingTxt
  | parsingTxt (e : TxtParseError)
deriving DecidableEq, Repr

/-- The message carried by each iterator error (the `%w`-wrapped scanner or
strconv detail text is elided). -/
def errorText : IterError → List Char
  | .notImplemented => "not implemented".toList
  | .readingTxt => "error reading txt subtitle".toList
  | .parsingTxt .startFrame => "error parsing txt subtitle: failed to parse start frame".toList
  | .parsingTxt .endFrame => "error parsing txt subtitle: failed to parse end frame".toList

/-- A line source as produced by `newScannerPull`: the lines the scanner
will deliver, and whether a read error is reported after them. -/
structure LineSource where
  lines : List (List Char)
  readErr : Bool
deriving DecidableEq, Repr

/-- The loop of `newTxtSubtitlesIter`, run to completion by a consumer that
never breaks early: each line is parsed; a parse error (wrapped) or a read
error (wrapped, after the lines) is yielded once and stops the loop;
a parser panic propagates (outer `none`). Returns the yielded
(subtitle, error) pairs and the unconsumed remainder of the source. -/
def txtIterRun : List (List Char) → Bool → Option (List (Subtitle × Option IterError) × LineSource)
  | [], false => some ([], ⟨[], false⟩)
  | [], true => some ([(zeroSubtitle, some IterError.readingTxt)], ⟨[], false⟩)
  | line :: rest, re =>
    match newSubtitleFromTxt line with
    | none => none
    | some (Except.error e) => some ([(zeroSubtitle, some (IterError.parsingTxt e))], ⟨rest, re⟩)
    | some (Except.ok sub) =>
      match txtIterRun rest re with
      | none => none
      | some (out, rem) => some ((sub, none) :: out, rem)

/-- Function `NewSubtitlesIter`: dispatch on the input format. `TxtFormat` runs the
txt loop; every other format yields `(Subtitle{}, ErrNotImplemented)`
exactly once without pulling anything from the scanner. -/
def NewSubtitlesIter (src : LineSource) (format : FileFormat) :
    Option (List (Subtitle × Option IterError) × LineSource) :=
  match format with
  | .TxtFormat => txtIterRun src.lines src.readErr
  | _ => some ([(zeroSubtitle, some IterError.notImplemented)], src)

/-! ### Arithmetic helper lemmas for the frame codec -/

theorem wrap64_eq_self (x : Int) (h1 : -9223372036854775808 ≤ x)
    (h2 : x < 9223372036854775808) : wrap64 x = x := by
  unfold wrap64 i64half i64size
  omega

theorem tdiv_coe (m n : Nat) : Int.tdiv (m : Int) (n : Int) = ((m / n : Nat) : Int) := by
  exact_mod_cast (Int.ofNat_tdiv m n).symm

theorem tdiv_neg_coe (m n : Nat) :
    Int.tdiv (-(m : Int)) (n : Int) = -((m / n : Nat) : Int) := by
  rw [Int.neg_tdiv, tdiv_coe]

/-- Evaluation of `frameToDuration` on a non-negative in-range frame evaluates, without any
wraparound taking effect, to the Nat-level formula of the source. -/
theorem frameToDuration_coe (F : Nat) (h : F ≤ 221000000000) :
    frameToDuration (F : Int) = ((F * 1001000 / 24000 * 1000000 : Nat) : Int) := by
  have hF1 : F * 1001000 ≤ 221221000000000000 := by omega
  have hQ : F * 1001000 / 24000 ≤ 9217541666666 := by
    have := @Nat.div_le_div_right _ _ 24000 hF1
    omega
  show wrap64 (Int.tdiv (wrap64 ((F : Int) * (ntscRateDen * ntscRateDiv))) ntscRateNum
      * 1000000) = _
  unfold ntscRateDen ntscRateDiv ntscRateNum
  have e1 : (F : Int) * (1001 * 1000) = ((F * 1001000 : Nat) : Int) := by push_cast; ring
  rw [e1, wrap64_eq_self ((F * 1001000 : Nat) : Int) (by omega) (by omega)]
  have e2 : Int.tdiv ((F * 1001000 : Nat) : Int) (24000 : Int) =
      ((F * 1001000 / 24000 : Nat) : Int) := by exact_mod_cast tdiv_coe (F * 1001000) 24000
  rw [e2]
  have e3 : ((F * 1001000 / 24000 : Nat) : Int) * 1000000 =
      ((F * 1001000 / 24000 * 1000000 : Nat) : Int) := by push_cast; ring
  rw [e3, wrap64_eq_self ((F * 1001000 / 24000 * 1000000 : Nat) : Int) (by omega) (by omega)]

/-- Evaluation of `frameToDuration` on a negative in-range frame: the mirror image of
`frameToDuration_coe` (truncated division is odd on its first argument). -/
theorem frameToDuration_neg_coe (F : Nat) (h : F ≤ 221000000000) :
    frameToDuration (-(F : Int)) = -((F * 1001000 / 24000 * 1000000 : Nat) : Int) := by
  have hF1 : F * 1001000 ≤ 221221000000000000 := by omega
  have hQ : F * 1001000 / 24000 ≤ 9217541666666 := by
    have := @Nat.div_le_div_right _ _ 24000 hF1
    omega
  show wrap64 (Int.tdiv (wrap64 (-(F : Int) * (ntscRateDen * ntscRateDiv))) ntscRateNum
      * 1000000) = _
  unfold ntscRateDen ntscRateDiv ntscRateNum
  have e1 : -(F : Int) * (1001 * 1000) = -((F * 1001000 : Nat) : Int) := by push_cast; ring
  rw [e1, wrap64_eq_self (-((F * 1001000 : Nat) : Int)) (by omega) (by omega)]
  have e2 : Int.tdiv (-((F * 1001000 : Nat) : Int)) (24000 : Int) =
      -((F * 1001000 / 24000 : Nat) : Int) := by exact_mod_cast tdiv_neg_coe (F * 1001000) 24000
  rw [e2]
  have e3 : -((F * 1001000 / 24000 : Nat) : Int) * 1000000 =
      -((F * 1001000 / 24000 * 1000000 : Nat) : Int) := by push_cast; ring
  rw [e3, wrap64_eq_self (-((F * 1001000 / 24000 * 1000000 : Nat) : Int)) (by omega) (by omega)]

/-- Evaluation of `writeTxtFrameOf` on a non-negative millisecond-exact duration. -/
theorem writeTxtFrameOf_coe (D : Nat) (h : D ≤ 9223372036854775807) :
    writeTxtFrameOf (D : Int) = ((D / 1000000 * 24000 + 500500) / 1001000 : Nat) := by
  have hms : D / 1000000 ≤ 9223372036854 := by
    have := @Nat.div_le_div_right _ _ 1000000 h
    omega
  show Int.tdiv (wrap64 (wrap64 (durationMilliseconds (D : Int) * ntscRateNum) +
      Int.tdiv (ntscRateDen * ntscRateDiv) 2)) (ntscRateDen * ntscRateDiv) = _
  unfold ntscRateDen ntscRateDiv ntscRateNum durationMilliseconds
  have e0 : Int.tdiv ((D : Nat) : Int) (1000000 : Int) = ((D / 1000000 : Nat) : Int) := by
    exact_mod_cast tdiv_coe D 1000000
  rw [e0]
  have e1 : ((D / 1000000 : Nat) : Int) * 24000 = ((D / 1000000 * 24000 : Nat) : Int) := by
    push_cast; ring
  rw [e1, wrap64_eq_self ((D / 1000000 * 24000 : Nat) : Int) (by omega) (by omega)]
  have e2 : Int.tdiv ((1001 : Int) * 1000) 2 = 500500 := by decide
  rw [e2]
  have e3 : ((D / 1000000 * 24000 : Nat) : Int) + 500500 =
      ((D / 1000000 * 24000 + 500500 : Nat) : Int) := by push_cast; ring
  rw [e3, wrap64_eq_self ((D / 1000000 * 24000 + 500500 : Nat) : Int) (by omega) (by omega)]
  have e4 : ((1001 : Int) * 1000) = ((1001000 : Nat) : Int) := by norm_num
  rw [e4]
  exact_mod_cast tdiv_coe (D / 1000000 * 24000 + 500500) 1001000

/-- C3: decode/encode round trip. Decoding a frame count `f ≤ 10,000,000`
to a duration with the parser's arithmetic and re-encoding it with
`writeTxtDuration`'s arithmetic yields `f` again. -/
theorem txt_frame_roundtrip (f : Nat) (h : f ≤ 10000000) :
    writeTxtFrameOf (frameToDuration (f : Int)) = (f : Int) := by
  rw [frameToDuration_coe f (by omega)]
  rw [writeTxtFrameOf_coe (f * 1001000 / 24000 * 1000000) (by
    have := @Nat.div_le_div_right _ _ 24000 (show f * 1001000 ≤ 10010000000000 by omega)
    omega)]
  have : f * 1001000 / 24000 * 1000000 / 1000000 = f * 1001000 / 24000 :=
    Nat.mul_div_cancel _ (by norm_num)
  rw [this]
  have h2 : f * 1001000 / 24000 * 24000 + 500500 = 24000 * (f * 1001000 / 24000) + 500500 := by
    ring
  have h3 : (f * 1001000 / 24000 * 24000 + 500500) / 1001000 = f := by omega
  exact_mod_cast h3

/-- C3 witness at the concrete frame count 240. -/
theorem txt_frame_roundtrip_witness :
    240 ≤ 10000000 ∧ writeTxtFrameOf (frameToDuration ((240 : Nat) : Int)) = ((240 : Nat) : Int) :=
  ⟨by decide, txt_frame_roundtrip 240 (by decide)⟩

/-- C4 counterexample: at the frame count 2^62 (accepted by
`strconv.ParseInt`) the int64 product `frame * 1001000` overflows, so the
decoded duration does not satisfy the exact reference formula
`duration_ms = f * 1001 * 1000 / 24000`. -/
theorem frame_decode_formula_overflow_cex :
    durationMilliseconds (frameToDuration 4611686018427387904) ≠
      Int.tdiv (4611686018427387904 * 1001 * 1000) 24000 := by decide

/-- C4 (amended): the codec matches the reference formulas in exact integer
arithmetic — decoding for every frame count of magnitude at most
221·10^9 (beyond which int64 overflow intervenes), and encoding for every
int64 duration whatsoever. -/
theorem frame_codec_formulas :
    (∀ f : Int, f.natAbs ≤ 221000000000 →
        durationMilliseconds (frameToDuration f) = Int.tdiv (f * 1001 * 1000) 24000) ∧
    (∀ d : Int, -i64half ≤ d → d < i64half →
        writeTxtFrameOf d =
          Int.tdiv (Int.tdiv d 1000000 * 24000 + Int.tdiv (1001 * 1000) 2) (1001 * 1000)) := by
  constructor
  · intro f hf
    rcases Int.natAbs_eq f with hs | hs
    · rw [hs]
      rw [frameToDuration_coe f.natAbs (by omega)]
      unfold durationMilliseconds
      have e0 : Int.tdiv ((f.natAbs * 1001000 / 24000 * 1000000 : Nat) : Int) (1000000 : Int) =
          ((f.natAbs * 1001000 / 24000 * 1000000 / 1000000 : Nat) : Int) := by
        exact_mod_cast tdiv_coe (f.natAbs * 1001000 / 24000 * 1000000) 1000000
      rw [e0, Nat.mul_div_cancel _ (by norm_num : (0 : Nat) < 1000000)]
      have e1 : ((f.natAbs : Nat) : Int) * 1001 * 1000 = ((f.natAbs * 1001000 : Nat) : Int) := by
        push_cast; ring
      rw [e1]
      exact_mod_cast (tdiv_coe (f.natAbs * 1001000) 24000).symm
    · rw [hs]
      rw [frameToDuration_neg_coe f.natAbs (by omega)]
      unfold durationMilliseconds
      have e0 : Int.tdiv (-((f.natAbs * 1001000 / 24000 * 1000000 : Nat) : Int)) (1000000 : Int) =
          -((f.natAbs * 1001000 / 24000 * 1000000 / 1000000 : Nat) : Int) := by
        exact_mod_cast tdiv_neg_coe (f.natAbs * 1001000 / 24000 * 1000000) 1000000
      rw [e0, Nat.mul_div_cancel _ (by norm_num : (0 : Nat) < 1000000)]
      have e1 : -((f.natAbs : Nat) : Int) * 1001 * 1000 = -((f.natAbs * 1001000 : Nat) : Int) := by
        push_cast; ring
      rw [e1]
      exact_mod_cast (tdiv_neg_coe (f.natAbs * 1001000) 24000).symm
  · intro d h1 h2
    have hi : i64half = 9223372036854775808 := rfl
    rw [hi] at h1 h2
    have hd : d.natAbs ≤ 9223372036854775808 := by omega
    have hms : (Int.tdiv d 1000000).natAbs = d.natAbs / (1000000 : Int).natAbs :=
      Int.natAbs_tdiv d 1000000
    have hms2 : (Int.tdiv d 1000000).natAbs ≤ 9223372036854 := by
      rw [hms]
      have : (1000000 : Int).natAbs = 1000000 := rfl
      rw [this]
      omega
    show Int.tdiv (wrap64 (wrap64 (Int.tdiv d 1000000 * ntscRateNum) +
        Int.tdiv (ntscRateDen * ntscRateDiv) 2)) (ntscRateDen * ntscRateDiv) = _
    unfold ntscRateNum ntscRateDen ntscRateDiv
    have e2 : Int.tdiv ((1001 : Int) * 1000) 2 = 500500 := by decide
    rw [e2]
    rw [wrap64_eq_self (Int.tdiv d 1000000 * 24000) (by omega) (by omega)]
    rw [wrap64_eq_self (Int.tdiv d 1000000 * 24000 + 500500) (by omega) (by omega)]

/-- C4 witness: both reference formulas at concrete inputs (frame 240;
the duration 5.12 s). -/
theorem frame_codec_formulas_witness :
    ((240 : Int).natAbs ≤ 221000000000 ∧
      durationMilliseconds (frameToDuration 240) = Int.tdiv (240 * 1001 * 1000) 24000) ∧
    (-i64half ≤ (5120000000 : Int) ∧ (5120000000 : Int) < i64half ∧
      writeTxtFrameOf 5120000000 =
        Int.tdiv (Int.tdiv 5120000000 1000000 * 24000 + Int.tdiv (1001 * 1000) 2)
          (1001 * 1000)) :=
  ⟨⟨by decide, frame_codec_formulas.1 240 (by decide)⟩,
   by decide, by decide, frame_codec_formulas.2 5120000000 (by decide) (by decide)⟩

/-- C8: the claim expects `NewSubtitlePrinter` to return a usable frame-text
printing function for `TxtFormat`; the source instead returns `nil` for that
format (its own test `TestNewSubtitlePrinter_TxtFormat` fails on this). -/
theorem newSubtitlePrinter_txt_is_nil :
    NewSubtitlePrinter FileFormat.TxtFormat = none := rfl

/-- C2: on the line `"abc"`, which has no closing brace, the parser panics
(slice `line[-1:]` out of range) instead of failing with a
"missing timing field" error; the line `"{12}{34"` without a second closing
brace likewise panics (`line[5:3]`). -/
theorem newSubtitleFromTxt_panics_without_closing_brace :
    newSubtitleFromTxt "abc".toList = none ∧
      newSubtitleFromTxt ['{', '1', '2', '}', '{', '3', '4'] = none := by decide

/-! ### Structure of `newSubtitleFromTxt` on lines with two brace pairs -/

theorem goIndexChar_cons_self (x : Char) (xs : List Char) :
    goIndexChar (x :: xs) x = 0 := by
  simp [goIndexChar]

theorem goIndexChar_append_first (xs ys : List Char) (c : Char) (h : c ∉ xs) :
    goIndexChar (xs ++ c :: ys) c = (xs.length : Int) := by
  induction xs with
  | nil => simp [goIndexChar]
  | cons x xs ih =>
    rw [List.mem_cons, not_or] at h
    have hxc : ¬ x = c := fun e => h.1 e.symm
    have hlen : ((xs.length : Nat) : Int) ≠ -1 := by omega
    have step : goIndexChar ((x :: xs) ++ c :: ys) c =
        if x = c then 0 else
          (if goIndexChar (xs ++ c :: ys) c = -1 then -1
           else goIndexChar (xs ++ c :: ys) c + 1) := rfl
    rw [step, if_neg hxc, ih h.2, if_neg hlen]
    simp only [List.length_cons]
    push_cast
    omega

theorem goSlice_middle (u v w : List Char) (lo hi : Int)
    (hlo : lo = (u.length : Int)) (hhi : hi = (u.length : Int) + (v.length : Int)) :
    goSlice (u ++ (v ++ w)) lo hi = some v := by
  subst hlo hhi
  unfold goSlice
  rw [if_pos]
  · have h1 : ((u.length : Int) + (v.length : Int)).toNat = u.length + v.length := by omega
    have h2 : ((u.length : Nat) : Int).toNat = u.length := Int.toNat_natCast _
    rw [h1, h2, List.take_append v.length, List.take_left, List.drop_left]
  · refine ⟨by omega, by omega, ?_⟩
    simp only [List.length_append]
    push_cast
    omega

theorem goSliceFrom_at (u v : List Char) (lo : Int) (hlo : lo = (u.length : Int)) :
    goSliceFrom (u ++ v) lo = some v := by
  subst hlo
  unfold goSliceFrom goSlice
  rw [if_pos]
  · have h1 : (((u ++ v).length : Nat) : Int).toNat = (u ++ v).length := Int.toNat_natCast _
    have h2 : ((u.length : Nat) : Int).toNat = u.length := Int.toNat_natCast _
    rw [h1, h2, List.take_length, List.drop_left]
  · refine ⟨by omega, ?_, by omega⟩
    simp only [List.length_append]
    push_cast
    omega

/-- On any line consisting of a `{...}` field (whose body `a` contains no
closing brace), immediately followed by a second `{...}` field (body `b`,
no closing brace), followed by an arbitrary payload `t`, the parser follows
exactly the source's path: parse `a` as the start frame, parse `b` as the
end frame, convert both at the NTSC rate, and pipe-split the payload. -/
theorem newSubtitleFromTxt_shape (a b t : List Char) (ha : '}' ∉ a) (hb : '}' ∉ b) :
    newSubtitleFromTxt ('{' :: a ++ '}' :: '{' :: b ++ '}' :: t) =
      match goParseInt64 a with
      | none => some (Except.error TxtParseError.startFrame)
      | some sa =>
        match goParseInt64 b with
        | none => some (Except.error TxtParseError.endFrame)
        | some sb =>
          some (Except.ok
            { Start := frameToDuration sa
              End := frameToDuration sb
              Text := replacePipes t }) := by
  have i1 : goIndexChar ('{' :: a ++ '}' :: '{' :: b ++ '}' :: t) '{' = 0 :=
    goIndexChar_cons_self _ _
  have i2 : goIndexChar ('{' :: a ++ '}' :: '{' :: b ++ '}' :: t) '}' =
      ((a.length : Int) + 1) := by
    have e : '{' :: a ++ '}' :: '{' :: b ++ '}' :: t =
        ('{' :: a) ++ '}' :: ('{' :: b ++ '}' :: t) := by simp
    rw [e, goIndexChar_append_first _ _ _ (by
      rw [List.mem_cons, not_or]
      exact ⟨by decide, ha⟩)]
    simp only [List.length_cons]
    push_cast
    omega
  have s1v : goSliceFrom ('{' :: a ++ '}' :: '{' :: b ++ '}' :: t) ((a.length : Int) + 1) =
      some ('}' :: '{' :: b ++ '}' :: t) := by
    have e : '{' :: a ++ '}' :: '{' :: b ++ '}' :: t =
        ('{' :: a) ++ ('}' :: '{' :: b ++ '}' :: t) := by simp
    rw [e]
    exact goSliceFrom_at _ _ _ (by
      simp only [List.length_cons]
      push_cast
      omega)
  have i3 : goIndexChar ('}' :: '{' :: b ++ '}' :: t) '{' = 1 := by
    simp only [goIndexChar, if_neg (by decide : ¬ ('}' = '{')),
      if_pos (rfl : '{' = '{')]
    norm_num
  have s2v : goSliceFrom ('{' :: a ++ '}' :: '{' :: b ++ '}' :: t)
      (1 + ((a.length : Int) + 1) + 1 - 1) = some ('{' :: b ++ '}' :: t) := by
    have e : '{' :: a ++ '}' :: '{' :: b ++ '}' :: t =
        ('{' :: a ++ ['}']) ++ ('{' :: b ++ '}' :: t) := by simp
    rw [e]
    refine goSliceFrom_at _ _ _ ?_
    simp only [List.length_append, List.length_cons, List.length_nil]
    push_cast
    omega
  have i4 : goIndexChar ('{' :: b ++ '}' :: t) '}' = ((b.length : Int) + 1) := by
    have e : '{' :: b ++ '}' :: t = ('{' :: b) ++ '}' :: t := by simp
    rw [e, goIndexChar_append_first _ _ _ (by
      rw [List.mem_cons, not_or]
      exact ⟨by decide, hb⟩)]
    simp only [List.length_cons]
    push_cast
    omega
  have s3v : goSlice ('{' :: a ++ '}' :: '{' :: b ++ '}' :: t) (0 + 1)
      ((a.length : Int) + 1) = some a := by
    have e : '{' :: a ++ '}' :: '{' :: b ++ '}' :: t =
        ['{'] ++ (a ++ ('}' :: '{' :: b ++ '}' :: t)) := by simp
    rw [e]
    refine goSlice_middle _ _ _ _ _ (by
        simp only [List.length_cons, List.length_nil]
        omega)
      (by
        simp only [List.length_cons, List.length_nil]
        omega)
  have s4v : goSlice ('{' :: a ++ '}' :: '{' :: b ++ '}' :: t)
      (1 + ((a.length : Int) + 1) + 1) (((b.length : Int) + 1) + (1 + ((a.length : Int) + 1) + 1) - 1) =
      some b := by
    have e : '{' :: a ++ '}' :: '{' :: b ++ '}' :: t =
        ('{' :: a ++ '}' :: ['{']) ++ (b ++ ('}' :: t)) := by simp
    rw [e]
    refine goSlice_middle _ _ _ _ _ ?_ ?_
    · simp only [List.length_append, List.length_cons, List.length_nil]
      push_cast
      omega
    · simp only [List.length_append, List.length_cons, List.length_nil]
      push_cast
      omega
  have s5v : goSliceFrom ('{' :: a ++ '}' :: '{' :: b ++ '}' :: t)
      ((((b.length : Int) + 1) + (1 + ((a.length : Int) + 1) + 1) - 1) + 1) = some t := by
    have e : '{' :: a ++ '}' :: '{' :: b ++ '}' :: t =
        ('{' :: a ++ '}' :: '{' :: b ++ ['}']) ++ t := by simp
    rw [e]
    refine goSliceFrom_at _ _ _ ?_
    simp only [List.length_append, List.length_cons, List.length_nil]
    push_cast
    omega
  simp only [newSubtitleFromTxt, i1, i2, s1v, i3, s2v, i4, s3v, s4v, s5v]

/-! ### Pipe-splitting of the text payload -/

theorem splitOnChar_ne_nil (sep : Char) (s : List Char) : splitOnChar sep s ≠ [] := by
  induction s with
  | nil => simp [splitOnChar]
  | cons c cs ih =>
    by_cases h : c = sep
    · simp [splitOnChar, h]
    · simp only [splitOnChar, if_neg h]
      cases hr : splitOnChar sep cs with
      | nil => exact absurd hr ih
      | cons l ls => simp

theorem splitOnChar_not_mem (sep : Char) (s : List Char) (h : sep ∉ s) :
    splitOnChar sep s = [s] := by
  induction s with
  | nil => rfl
  | cons c cs ih =>
    rw [List.mem_cons, not_or] at h
    have hc : ¬ c = sep := fun e => h.1 e.symm
    simp only [splitOnChar, if_neg hc, ih h.2]

theorem splitOnChar_length (sep : Char) (s : List Char) :
    (splitOnChar sep s).length = countChar sep s + 1 := by
  induction s with
  | nil => rfl
  | cons c cs ih =>
    by_cases h : c = sep
    · simp only [splitOnChar, if_pos h, countChar, if_pos h, List.length_cons]
      omega
    · simp only [splitOnChar, if_neg h, countChar, if_neg h]
      cases hr : splitOnChar sep cs with
      | nil => exact absurd hr (splitOnChar_ne_nil sep cs)
      | cons l ls =>
        rw [hr] at ih
        simp only [List.length_cons] at ih ⊢
        omega

theorem splitOnChar_replacePipes (t : List Char) (h : '\n' ∉ t) :
    splitOnChar '\n' (replacePipes t) = splitOnChar '|' t := by
  induction t with
  | nil => rfl
  | cons c cs ih =>
    rw [List.mem_cons, not_or] at h
    have hcn : ¬ c = '\n' := fun e => h.1 e.symm
    by_cases hp : c = '|'
    · simp only [replacePipes, List.map_cons, if_pos hp, splitOnChar, if_pos rfl,
        if_pos hp]
      rw [show (List.map (fun c => if c = '|' then '\n' else c) cs) = replacePipes cs from rfl]
      rw [ih h.2]
      simp
    · simp only [replacePipes, List.map_cons, if_neg hp, splitOnChar, if_neg hcn, if_neg hp]
      rw [show (List.map (fun c => if c = '|' then '\n' else c) cs) = replacePipes cs from rfl]
      rw [ih h.2]

/-- C6: within the two-brace-field line family, a non-integer first field
makes the parser fail with the start-frame error, and an integer first
field with a non-integer second field makes it fail with the end-frame
error; in both cases the parser returns an error value (it does not
panic). -/
theorem parse_error_names_failed_field (a b t : List Char) (ha : '}' ∉ a) (hb : '}' ∉ b) :
    (goParseInt64 a = none →
      newSubtitleFromTxt ('{' :: a ++ '}' :: '{' :: b ++ '}' :: t) =
        some (Except.error TxtParseError.startFrame)) ∧
    (∀ v : Int, goParseInt64 a = some v → goParseInt64 b = none →
      newSubtitleFromTxt ('{' :: a ++ '}' :: '{' :: b ++ '}' :: t) =
        some (Except.error TxtParseError.endFrame)) := by
  constructor
  · intro hpa
    rw [newSubtitleFromTxt_shape a b t ha hb, hpa]
  · intro v hpa hpb
    rw [newSubtitleFromTxt_shape a b t ha hb, hpa, hpb]

/-- C6 witness: the two example lines of the spec. -/
theorem parse_error_names_failed_field_witness :
    newSubtitleFromTxt "{abc}{200}Invalid start".toList =
      some (Except.error TxtParseError.startFrame) ∧
    newSubtitleFromTxt "{100}{xyz}Invalid end".toList =
      some (Except.error TxtParseError.endFrame) :=
  ⟨(parse_error_names_failed_field "abc".toList "200".toList "Invalid start".toList
      (by decide) (by decide)).1 (by decide),
   (parse_error_names_failed_field "100".toList "xyz".toList "Invalid end".toList
      (by decide) (by decide)).2 100 (by decide) (by decide)⟩

/-- C7 counterexample: the empty payload parses to a record with one empty
display line, not zero display lines (`strings.Split`-style splitting of
the empty text yields one empty piece). -/
theorem empty_payload_single_line_cex :
    newSubtitleFromTxt "{100}{200}".toList =
      some (Except.ok ⟨4170000000, 8341000000, []⟩) ∧
    displayLines ([] : List Char) = [[]] ∧
    ([([] : List Char)] : List (List Char)) ≠ [] := by decide

/-- C7 (amended): for every well-formed frame-text line the payload is split
on `|` into the record's display lines: zero `|` gives exactly one line, `n`
separators give `n + 1` lines (so consecutive or trailing `|` give empty
lines), and the empty payload gives one empty line. -/
theorem display_lines_split (a b t : List Char) (ha : '}' ∉ a) (hb : '}' ∉ b)
    (hn : '\n' ∉ t) (sa sb : Int)
    (hpa : goParseInt64 a = some sa) (hpb : goParseInt64 b = some sb) :
    newSubtitleFromTxt ('{' :: a ++ '}' :: '{' :: b ++ '}' :: t) =
      some (Except.ok
        { Start := frameToDuration sa
          End := frameToDuration sb
          Text := replacePipes t }) ∧
    displayLines (replacePipes t) = splitOnChar '|' t ∧
    ('|' ∉ t → splitOnChar '|' t = [t]) ∧
    (splitOnChar '|' t).length = countChar '|' t + 1 := by
  refine ⟨?_, ?_, ?_, ?_⟩
  · rw [newSubtitleFromTxt_shape a b t ha hb, hpa, hpb]
  · exact splitOnChar_replacePipes t hn
  · exact fun hp => splitOnChar_not_mem '|' t hp
  · exact splitOnChar_length '|' t

/-- C7 witness: the spec's own multiline example yields exactly the three
display lines. -/
theorem display_lines_split_witness :
    newSubtitleFromTxt "{500}{600}Line one|Line two|Line three".toList =
      some (Except.ok
        { Start := frameToDuration 500
          End := frameToDuration 600
          Text := replacePipes "Line one|Line two|Line three".toList }) ∧
    displayLines (replacePipes "Line one|Line two|Line three".toList) =
      ["Line one".toList, "Line two".toList, "Line three".toList] := by
  have h := display_lines_split "500".toList "600".toList
    "Line one|Line two|Line three".toList (by decide) (by decide) (by decide)
    500 600 (by decide) (by decide)
  exact ⟨h.1, h.2.1.trans (by decide)⟩

/-- C10 counterexample: the line `{-4611686018427387904}{0}x` has a negative
start field, parses successfully, but its stored `Start` duration is 0 (int64
overflow in the frame product), not negative. -/
theorem negative_frame_nonneg_duration_cex :
    newSubtitleFromTxt "{-4611686018427387904}{0}x".toList =
      some (Except.ok ⟨0, 0, ['x']⟩) ∧ ¬ ((0 : Int) < 0) := by decide

/-- C10 (amended): the parser accepts negative frame fields without error;
for negative frames of magnitude at most 221·10^9 the stored duration is
negative (beyond that, int64 overflow can make it non-negative); and the
core's writers never reject a record over its timing values. -/
theorem negative_frames_accepted (a b t : List Char) (ha : '}' ∉ a) (hb : '}' ∉ b)
    (sa sb : Int) (hpa : goParseInt64 a = some sa) (hpb : goParseInt64 b = some sb) :
    newSubtitleFromTxt ('{' :: a ++ '}' :: '{' :: b ++ '}' :: t) =
      some (Except.ok
        { Start := frameToDuration sa
          End := frameToDuration sb
          Text := replacePipes t }) ∧
    (sa < 0 → sa.natAbs ≤ 221000000000 → frameToDuration sa < 0) ∧
    (∀ sub : Subtitle, ∀ n : Int, (writeSrtSubtitle reliableWriter sub n).2 = true) ∧
    (∀ d : Int, (writeTxtDuration reliableWriter d).2 = true) := by
  refine ⟨?_, ?_, ?_, ?_⟩
  · rw [newSubtitleFromTxt_shape a b t ha hb, hpa, hpb]
  · intro hneg hbound
    rcases Int.natAbs_eq sa with hs | hs
    · omega
    · rw [hs, frameToDuration_neg_coe sa.natAbs hbound]
      have h1 : 1 ≤ sa.natAbs := by omega
      have h2 : 0 < sa.natAbs * 1001000 / 24000 * 1000000 := by
        have : 1001000 ≤ sa.natAbs * 1001000 := by omega
        have : 41 ≤ sa.natAbs * 1001000 / 24000 := by omega
        omega
      omega
  · intro sub n
    simp [writeSrtSubtitle, goWrite, reliableWriter]
  · intro d
    simp [writeTxtDuration, goWrite, reliableWriter]

/-- C10 witness: the line `{-5}{200}neg` parses with a negative start. -/
theorem negative_frames_accepted_witness :
    newSubtitleFromTxt "{-5}{200}neg".toList =
      some (Except.ok
        { Start := frameToDuration (-5)
          End := frameToDuration 200
          Text := replacePipes "neg".toList }) ∧
    frameToDuration (-5) < 0 :=
  ⟨(negative_frames_accepted "-5".toList "200".toList "neg".toList
      (by decide) (by decide) (-5) 200 (by decide) (by decide)).1,
   (negative_frames_accepted "-5".toList "200".toList "neg".toList
      (by decide) (by decide) (-5) 200 (by decide) (by decide)).2.1
      (by decide) (by decide)⟩

/-! ### The clock-text serializer and its sequence counter -/

/-- C1: on the repository's own test input (start 5.12 s, end 6.84 s, text
"Hello, World!", sequence number 1) the serializer writes the start duration
in both positions of the ` --> ` separator, a leading space before the text
(from `fmt.Fprintln(w, "\n", sub.Text)`), and no trailing blank line — not
the block the claim (and the test `TestNewSubtitlePrinter_SrtFormat`)
describe. -/
theorem writeSrtSubtitle_emits_duplicate_start :
    writeSrtSubtitle reliableWriter ⟨5120000000, 6840000000, "Hello, World!".toList⟩ 1 =
      (⟨"1\n00:00:05,120 --> 00:00:05,120\n Hello, World!\n".toList, []⟩, true) ∧
    "1\n00:00:05,120 --> 00:00:05,120\n Hello, World!\n".toList ≠
      "1\n00:00:05,120 --> 00:00:06,840\nHello, World!\n\n".toList := by decide

/-- On a writer with no scheduled failures, `writeSrtSubtitle` succeeds and
appends exactly the record's block. -/
theorem writeSrtSubtitle_reliable (out : List Char) (sub : Subtitle) (n : Int) :
    writeSrtSubtitle ⟨out, []⟩ sub n = (⟨out ++ srtBlockChars n sub, []⟩, true) := by
  simp [writeSrtSubtitle, goWrite, srtBlockChars, List.append_assoc]

/-- C5 counterexample: with a writer whose first `Write` call fails, the
first emission fails but the counter still advances to 1, and the next
(successful) emission writes sequence number 2 as its first line — the
failed emission's ordinal 1 is not reused. -/
theorem srt_counter_advances_on_failure_cex :
    (srtPrinterStep ⟨0, ⟨[], [false]⟩⟩ ⟨1000000000, 2000000000, "First".toList⟩).2 = false ∧
    (srtPrinterStep ⟨0, ⟨[], [false]⟩⟩ ⟨1000000000, 2000000000, "First".toList⟩).1.n = 1 ∧
    (srtPrinterStep
        (srtPrinterStep ⟨0, ⟨[], [false]⟩⟩ ⟨1000000000, 2000000000, "First".toList⟩).1
        ⟨3000000000, 4000000000, "Second".toList⟩).1.w.out =
      "2\n00:00:03,000 --> 00:00:03,000\n Second\n".toList := by decide

/-- C5 (amended): the sequence counter starts at 0 and is incremented before
every emission attempt. Serializing three records on a reliable writer
succeeds, emits the blocks with sequence numbers 1, 2, 3 (each block starts
with its number line), and leaves the counter at 3; and on every attempt,
successful or failed, the counter advances by exactly one. -/
theorem srt_counter_preincrement (s1 s2 s3 : Subtitle) :
    (srtPrinterStep ⟨0, reliableWriter⟩ s1).2 = true ∧
    (srtPrinterStep (srtPrinterStep ⟨0, reliableWriter⟩ s1).1 s2).2 = true ∧
    (srtPrinterStep (srtPrinterStep (srtPrinterStep ⟨0, reliableWriter⟩ s1).1 s2).1 s3).2 =
      true ∧
    (srtPrinterStep (srtPrinterStep (srtPrinterStep ⟨0, reliableWriter⟩ s1).1 s2).1 s3).1 =
      ⟨3, ⟨srtBlockChars 1 s1 ++ (srtBlockChars 2 s2 ++ srtBlockChars 3 s3), []⟩⟩ ∧
    (∀ st : SrtPrinter, ∀ sub : Subtitle, (srtPrinterStep st sub).1.n = st.n + 1) := by
  have e1 : srtPrinterStep ⟨0, reliableWriter⟩ s1 =
      (⟨1, ⟨srtBlockChars 1 s1, []⟩⟩, true) := by
    simp [srtPrinterStep, reliableWriter, writeSrtSubtitle_reliable]
  have e2 : srtPrinterStep ⟨1, ⟨srtBlockChars 1 s1, []⟩⟩ s2 =
      (⟨2, ⟨srtBlockChars 1 s1 ++ srtBlockChars 2 s2, []⟩⟩, true) := by
    simp [srtPrinterStep, writeSrtSubtitle_reliable]
  have e3 : srtPrinterStep ⟨2, ⟨srtBlockChars 1 s1 ++ srtBlockChars 2 s2, []⟩⟩ s3 =
      (⟨3, ⟨srtBlockChars 1 s1 ++ (srtBlockChars 2 s2 ++ srtBlockChars 3 s3), []⟩⟩, true) := by
    simp [srtPrinterStep, writeSrtSubtitle_reliable, List.append_assoc]
  refine ⟨?_, ?_, ?_, ?_, ?_⟩
  · rw [e1]
  · rw [e1, e2]
  · rw [e1, e2, e3]
  · rw [e1, e2, e3]
  · intro st sub
    rfl

/-! ### Unsupported input formats -/

/-- C9 counterexample: the single stable error yielded for a non-txt input
format is the sentinel `ErrNotImplemented`, whose message is
"not implemented", not "format not supported". -/
theorem unsupported_error_message_cex :
    NewSubtitlesIter ⟨["{100}{150}Some text".toList], false⟩ FileFormat.SrtFormat =
      some ([(zeroSubtitle, some IterError.notImplemented)],
        ⟨["{100}{150}Some text".toList], false⟩) ∧
    errorText IterError.notImplemented = "not implemented".toList ∧
    errorText IterError.notImplemented ≠ "format not supported".toList := by decide

/-- C9 (amended): for every input format other than the frame-text format
and every input stream, the iterator yields exactly one result, carrying the
stable `ErrNotImplemented` sentinel ("not implemented") and the zero-value
record, and leaves the input source untouched. -/
theorem unsupported_format_single_error (fmt : FileFormat)
    (h : fmt ≠ FileFormat.TxtFormat) (src : LineSource) :
    NewSubtitlesIter src fmt =
      some ([(zeroSubtitle, some IterError.notImplemented)], src) := by
  cases fmt with
  | TxtFormat => exact absurd rfl h
  | UnknownFormat => rfl
  | SrtFormat => rfl

/-- C9 witness: the `SrtFormat` input of the repository's own test. -/
theorem unsupported_format_single_error_witness :
    NewSubtitlesIter ⟨["{100}{150}Some text".toList], false⟩ FileFormat.SrtFormat =
      some ([(zeroSubtitle, some IterError.notImplemented)],
        ⟨["{100}{150}Some text".toList], false⟩) :=
  unsupported_format_single_error FileFormat.SrtFormat (by decide) _
